import Mathlib

/-!
Shallow embedding of the kitties pallets of the repository and proofs of
the frozen claims about them.

The main pallet modelled is `kitties-node/pallets/kitties/src/lib.rs`
(namespace `KittiesNode`); claim C7 concerns the bounded ownership index of
`substrate-node-template/pallets/kitties/src/lib.rs` (namespace
`NodeTemplate`).

Modelling conventions:
* `u8` bytes are `Nat` values below 256; the Rust bitwise complement `!x`
  on `u8` is `255 ^^^ x`, which agrees with it on all values below 256.
* The generic kitty index type and balances are `Nat`; the index type's
  `max_value()` and the constants `KittyDepositBase` and the existential
  deposit of the currency are fields of a configuration record `Cfg`.
* Storage maps with `ValueQuery` over `Option` values become total
  functions into `Option _` whose default is `none`.
* The external randomness (`random_value`) is an input parameter of the
  operations that consume it: `create` takes the derived dna, `breed`
  takes the derived mask bytes.
* The balance ledger (`Currency`) is modelled with per-account free and
  reserved balances: `reserve` fails iff the free balance is below the
  amount, `transfer` with `ExistenceRequirement::KeepAlive` fails iff the
  source's free balance cannot cover the amount while staying at or above
  the existential deposit, `unreserve` never fails.
* Each dispatchable runs inside the host's transaction boundary: an
  operation either returns `Except.ok` with the fully updated state or
  `Except.error` with every intermediate mutation discarded (the spec's
  atomicity assumption).  The `run*` wrappers realise this: on an error
  the pre-state is kept.  `buy_kitty` contains an `unwrap` of the owner
  entry; a hit of that `unwrap` on `None` (a Rust panic) is modelled by
  the outer `Option` of its result being `none`.
-/

namespace KittiesNode

/-- A 16-byte DNA vector, one `Nat` byte per position. -/
abbrev Dna := Fin 16 → Nat

/-- Bitwise complement of a `u8` byte embedded as a `Nat` below 256. -/
def not8 (b : Nat) : Nat := 255 ^^^ b

/-- `pub struct Kitty(pub [u8; 16]);` -/
structure Kitty where
  dna : Dna

/-- Pointwise update of a map modelled as a function. -/
def updMap {α : Type} (f : Nat → α) (k : Nat) (v : α) : Nat → α :=
  fun x => if x = k then v else f x

/-- The external balance ledger: free and reserved balance per account. -/
structure Ledger where
  free : Nat → Nat
  reserved : Nat → Nat

/-- `Currency::reserve`: moves `amt` from free to reserved, failing iff the
free balance is insufficient. -/
def Ledger.reserve (l : Ledger) (who : Nat) (amt : Nat) :
    Option Ledger :=
  if amt ≤ l.free who then
    some ⟨updMap l.free who (l.free who - amt),
          updMap l.reserved who (l.reserved who + amt)⟩
  else none

/-- `Currency::unreserve`: moves back at most `amt` from reserved to free;
never fails. -/
def Ledger.unreserve (l : Ledger) (who : Nat) (amt : Nat) :
    Ledger :=
  let m := min amt (l.reserved who)
  ⟨updMap l.free who (l.free who + m),
   updMap l.reserved who (l.reserved who - m)⟩

/-- `Currency::transfer(.., ExistenceRequirement::KeepAlive)`: fails iff the
source cannot pay `amt` from its free balance while keeping at least the
existential deposit `ed`. -/
def Ledger.transferKA (l : Ledger) (src dst : Nat) (amt ed : Nat) :
    Option Ledger :=
  if amt ≤ l.free src ∧ ed ≤ l.free src - amt then
    let f1 := updMap l.free src (l.free src - amt)
    some ⟨updMap f1 dst (f1 dst + amt), l.reserved⟩
  else none

/-- Runtime configuration: the kitty index type's `max_value()`,
`KittyDepositBase`, and the currency's existential deposit. -/
structure Cfg where
  maxValue : Nat
  deposit : Nat
  existentialDeposit : Nat

/-- The pallet's error enum, plus `LedgerError` for the dispatch error
propagated from `Currency::transfer` in `buy_kitty`. -/
inductive KError
  | KittiesCountOverflow
  | NotKittyOwner
  | SameParentIndex
  | InvalidKittyIndex
  | InsufficientBalance
  | BuyFromSelf
  | KittyNotForSale
  | LedgerError
deriving DecidableEq

/-- On-chain state: the four storage items plus the external ledger. -/
structure KState where
  kittiesCount : Option Nat
  kitties : Nat → Option Kitty
  owner : Nat → Option Nat
  price : Nat → Option Nat
  ledger : Ledger

/-- `get_id`: the stored count, or 0 when the storage value is unset. -/
def get_id (s : KState) : Nat :=
  match s.kittiesCount with
  | some id => id
  | none => 0

/-- `create`: allocate id, check overflow, reserve the deposit, then insert
kitty, owner and the advanced counter.  `dna` is the `random_value` output. -/
def create (cfg : Cfg) (s : KState) (who : Nat) (dna : Dna) :
    Except KError KState :=
  let kid := get_id s
  if kid = cfg.maxValue then .error .KittiesCountOverflow
  else
    match s.ledger.reserve who cfg.deposit with
    | none => .error .InsufficientBalance
    | some l =>
      .ok { s with
              kitties := updMap s.kitties kid (some ⟨dna⟩),
              owner := updMap s.owner kid (some who),
              kittiesCount := some (kid + 1),
              ledger := l }

/-- `transfer`: only the ownership check, then the owner map update. -/
def transfer (s : KState) (who newOwner : Nat) (kid : Nat) :
    Except KError KState :=
  if some who = s.owner kid then
    .ok { s with owner := updMap s.owner kid (some newOwner) }
  else .error .NotKittyOwner

/-- `breed_dna`: per byte, `(mask AND dna1) OR (NOT mask AND dna2)` where
`mask` is the `random_value` output. -/
def breed_dna (mix dna1 dna2 : Dna) : Dna :=
  fun i => (mix i &&& dna1 i) ||| (not8 (mix i) &&& dna2 i)

/-- `breed`: distinct-parent check, parent lookups, overflow check, then the
same insertions as `create` (no deposit is reserved). -/
def breed (cfg : Cfg) (s : KState) (who : Nat)
    (kid1 kid2 : Nat) (mix : Dna) : Except KError KState :=
  if kid1 = kid2 then .error .SameParentIndex
  else
    match s.kitties kid1 with
    | none => .error .InvalidKittyIndex
    | some k1 =>
      match s.kitties kid2 with
      | none => .error .InvalidKittyIndex
      | some k2 =>
        let kid := get_id s
        if kid = cfg.maxValue then .error .KittiesCountOverflow
        else
          .ok { s with
                  kitties := updMap s.kitties kid
                    (some ⟨breed_dna mix k1.dna k2.dna⟩),
                  owner := updMap s.owner kid (some who),
                  kittiesCount := some (kid + 1) }

/-- `sell_kitty`: ownership check, then store `p` (possibly `none`) as the
price. -/
def sell_kitty (s : KState) (who : Nat) (kid : Nat)
    (p : Option Nat) : Except KError KState :=
  if some who = s.owner kid then
    .ok { s with price := updMap s.price kid p }
  else .error .NotKittyOwner

/-- `buy_kitty`: existence check, owner `unwrap` (outer `none` = panic),
self-buy check, price lookup, reserve from the buyer, unreserve the seller,
currency transfer, then clear the price and reassign the owner. -/
def buy_kitty (cfg : Cfg) (s : KState) (who : Nat)
    (kid : Nat) : Option (Except KError KState) :=
  match s.kitties kid with
  | none => some (.error .InvalidKittyIndex)
  | some _ =>
    match s.owner kid with
    | none => none
    | some seller =>
      if who = seller then some (.error .BuyFromSelf)
      else
        match s.price kid with
        | none => some (.error .KittyNotForSale)
        | some p =>
          match s.ledger.reserve who cfg.deposit with
          | none => some (.error .InsufficientBalance)
          | some l1 =>
            let l2 := l1.unreserve seller cfg.deposit
            match l2.transferKA who seller p cfg.existentialDeposit with
            | none => some (.error .LedgerError)
            | some l3 =>
              some (.ok { s with
                            price := updMap s.price kid none,
                            owner := updMap s.owner kid (some who),
                            ledger := l3 })

/-- Transactional semantics of a dispatchable: an error keeps the
pre-state. -/
def runCreate (cfg : Cfg) (s : KState) (who : Nat) (dna : Dna) :
    KState :=
  match create cfg s who dna with
  | .ok s' => s'
  | .error _ => s

def runTransfer (s : KState) (who newOwner : Nat)
    (kid : Nat) : KState :=
  match transfer s who newOwner kid with
  | .ok s' => s'
  | .error _ => s

def runBreed (cfg : Cfg) (s : KState) (who : Nat)
    (kid1 kid2 : Nat) (mix : Dna) : KState :=
  match breed cfg s who kid1 kid2 mix with
  | .ok s' => s'
  | .error _ => s

def runSell (s : KState) (who : Nat) (kid : Nat)
    (p : Option Nat) : KState :=
  match sell_kitty s who kid p with
  | .ok s' => s'
  | .error _ => s

def runBuy (cfg : Cfg) (s : KState) (who : Nat)
    (kid : Nat) : KState :=
  match buy_kitty cfg s who kid with
  | some (.ok s') => s'
  | _ => s

/-- Whether a dispatch result is a success. -/
def isOk {ε α : Type} : Except ε α → Bool
  | .ok _ => true
  | .error _ => false

/-- The error of a dispatch result, if any. -/
def errOf {ε α : Type} : Except ε α → Option ε
  | .ok _ => none
  | .error e => some e

/-- One successful dispatchable call. -/
inductive Step (cfg : Cfg) : KState → KState → Prop
  | create {s s' who dna} : create cfg s who dna = .ok s' → Step cfg s s'
  | transfer {s s' who newOwner kid} :
      transfer s who newOwner kid = .ok s' → Step cfg s s'
  | breed {s s' who kid1 kid2 mix} :
      breed cfg s who kid1 kid2 mix = .ok s' → Step cfg s s'
  | sell {s s' who kid p} : sell_kitty s who kid p = .ok s' → Step cfg s s'
  | buy {s s' who kid} :
      buy_kitty cfg s who kid = some (.ok s') → Step cfg s s'

/-- A successful mint: a successful `create` or `breed`; the minted id is
`get_id` of the pre-state. -/
def MintOk (cfg : Cfg) (s s' : KState) : Prop :=
  (∃ who dna, create cfg s who dna = .ok s') ∨
  (∃ who kid1 kid2 mix, breed cfg s who kid1 kid2 mix = .ok s')

/-- The state with empty storage (genesis, before any call), over an
arbitrary initial ledger. -/
def emptyState (l : Ledger) : KState :=
  ⟨none, fun _ => none, fun _ => none, fun _ => none, l⟩

/-- States reachable from genesis by successful dispatchable calls. -/
def Reachable (cfg : Cfg) (l : Ledger) (s : KState) : Prop :=
  Relation.ReflTransGen (Step cfg) (emptyState l) s

/-- Structural invariant of the storage maps. -/
structure Inv (s : KState) : Prop where
  ownerOfKitty : ∀ kid, (s.kitties kid).isSome → (s.owner kid).isSome
  kittyOfOwner : ∀ kid, (s.owner kid).isSome → (s.kitties kid).isSome
  fresh : ∀ kid, get_id s ≤ kid →
    s.kitties kid = none ∧ s.owner kid = none ∧ s.price kid = none

end KittiesNode

namespace NodeTemplate

/-!
Embedding of `substrate-node-template/pallets/kitties/src/lib.rs`: the
`mint` helper with its `u64` counter (`checked_add`) and the
`BoundedVec<T::Nat, T::MaxKittyOwned>` ownership index (`try_push`).
Kitty ids are `T::Hashing::hash_of(&kitty)`, modelled by an injected hash
function.
-/

abbrev Dna := Fin 16 → Nat

inductive Gender
  | Male
  | Female
deriving DecidableEq

/-- `pub struct Kitty<T: Config>` of the node-template pallet. -/
structure Kitty where
  dna : Dna
  price : Option Nat
  gender : Gender
  owner : Nat

inductive SError
  | KittyCntOverflow
  | ExceedMaxKittyOwned
  | BuyerIsKittyOwner
  | TransferToSelf
  | KittyNotExist
  | NotKittyOwner
  | KittyNotForSale
  | KittyBidPriceTooLow
  | NotEnoughBalance
deriving DecidableEq

/-- Pallet configuration: `MaxKittyOwned` and the injected `hash_of`. -/
structure SCfg where
  maxKittyOwned : Nat
  hashOf : Kitty → Nat

/-- Storage: `KittyCnt` (a `u64`), `Kitties`, `KittiesOwned`. -/
structure SState where
  kittyCnt : Nat
  kitties : Nat → Option Kitty
  kittiesOwned : Nat → List Nat

/-- `u64::MAX`, the bound of the `checked_add` in `mint`. -/
def u64max : Nat := 2 ^ 64 - 1

/-- `mint`: build the kitty record (randomness resolved through the
`rndDna`/`rndGender` inputs when no explicit value is supplied), hash it
into its id, `checked_add` the counter, `try_push` into the owner's bounded
vector, then insert the kitty and store the new counter. -/
def mint (cfg : SCfg) (s : SState) (owner : Nat)
    (dna? : Option Dna) (rndDna : Dna)
    (gender? : Option Gender) (rndGender : Gender) :
    Except SError (SState × Nat) :=
  let kitty : Kitty :=
    { dna := dna?.getD rndDna,
      price := none,
      gender := gender?.getD rndGender,
      owner := owner }
  let kid := cfg.hashOf kitty
  if s.kittyCnt = u64max then .error .KittyCntOverflow
  else if cfg.maxKittyOwned ≤ (s.kittiesOwned owner).length then
    .error .ExceedMaxKittyOwned
  else
    .ok ({ kittyCnt := s.kittyCnt + 1,
           kitties := KittiesNode.updMap s.kitties kid (some kitty),
           kittiesOwned :=
             KittiesNode.updMap s.kittiesOwned owner
               (s.kittiesOwned owner ++ [kid]) },
         kid)

/-- Transactional wrapper: a failed mint keeps the pre-state. -/
def runMint (cfg : SCfg) (s : SState) (owner : Nat)
    (dna? : Option Dna) (rndDna : Dna)
    (gender? : Option Gender) (rndGender : Gender) : SState :=
  match mint cfg s owner dna? rndDna gender? rndGender with
  | .ok (s', _) => s'
  | .error _ => s

end NodeTemplate

namespace KittiesNode

/-- Predicate: the balance ledger reports a failure somewhere during the
ledger phase of `buy_kitty` (the `reserve` from the buyer, or the
`KeepAlive` currency transfer performed after `reserve`/`unreserve`). -/
def buyLedgerFails (cfg : Cfg) (l : Ledger) (buyer seller : Nat)
    (p : Nat) : Prop :=
  match l.reserve buyer cfg.deposit with
  | none => True
  | some l1 =>
    (l1.unreserve seller cfg.deposit).transferKA buyer seller p
      cfg.existentialDeposit = none

/-! Concrete fixtures used by witnesses and counterexamples. -/

/-- All-zero dna. -/
def dna0 : Dna := fun _ => 0

/-- A configuration: index bound 100, deposit 10, existential deposit 1. -/
def cfgW : Cfg := ⟨100, 10, 1⟩

/-- A ledger where account 2 holds 5 free units and everyone else 100. -/
def lPoor : Ledger := ⟨fun a => if a = 2 then 5 else 100, fun _ => 0⟩

/-- A ledger where every account holds 100 free units. -/
def lRich : Ledger := ⟨fun _ => 100, fun _ => 0⟩

/-- One kitty (id 0, owner 1) listed at price 7, over the given ledger. -/
def listedState (l : Ledger) : KState :=
  ⟨some 1,
   fun k => if k = 0 then some ⟨dna0⟩ else none,
   fun k => if k = 0 then some 1 else none,
   fun k => if k = 0 then some 7 else none,
   l⟩

/-- A state whose counter has reached `cfgTwo.maxValue = 2`: two kitties
(ids 0 and 1, owner 1), unlisted, over the rich ledger. -/
def fullState : KState :=
  ⟨some 2,
   fun k => if k = 0 then some ⟨dna0⟩ else if k = 1 then some ⟨dna0⟩ else none,
   fun k => if k = 0 then some 1 else if k = 1 then some 1 else none,
   fun _ => none,
   lRich⟩

/-- A configuration whose kitty-index maximum is 2. -/
def cfgTwo : Cfg := ⟨2, 10, 1⟩

end KittiesNode

namespace NodeTemplate

/-- A node-template configuration: at most one kitty per account, with a
constant hash function. -/
def cfgS : SCfg := ⟨1, fun _ => 0⟩

/-- The empty node-template state. -/
def sEmpty : SState := ⟨0, fun _ => none, fun _ => []⟩

/-- A state where account 5 already owns `cfgS.maxKittyOwned = 1` kitty. -/
def sFull : SState :=
  ⟨1,
   fun h => if h = 9 then some ⟨fun _ => 0, none, Gender.Male, 5⟩ else none,
   fun a => if a = 5 then [9] else []⟩

end NodeTemplate

namespace KittiesNode

/-- Success characterization of `create`. -/
theorem create_ok_iff {cfg : Cfg} {s : KState} {who : Nat}
    {dna : Dna} {s' : KState} :
    create cfg s who dna = .ok s' ↔
      get_id s ≠ cfg.maxValue ∧
      ∃ l, s.ledger.reserve who cfg.deposit = some l ∧
        s' = { s with
                 kitties := updMap s.kitties (get_id s) (some ⟨dna⟩),
                 owner := updMap s.owner (get_id s) (some who),
                 kittiesCount := some (get_id s + 1),
                 ledger := l } := by
  unfold create
  by_cases hmax : get_id s = cfg.maxValue
  · simp [hmax]
  · cases h : s.ledger.reserve who cfg.deposit
    · simp [hmax, h]
    · simp [hmax, h, eq_comm]

/-- Success characterization of `transfer`. -/
theorem transfer_ok_iff {s : KState} {who newOwner : Nat}
    {kid : Nat} {s' : KState} :
    transfer s who newOwner kid = .ok s' ↔
      some who = s.owner kid ∧
      s' = { s with owner := updMap s.owner kid (some newOwner) } := by
  unfold transfer
  split <;> simp_all [eq_comm]

/-- Success characterization of `sell_kitty`. -/
theorem sell_ok_iff {s : KState} {who : Nat} {kid : Nat}
    {p : Option Nat} {s' : KState} :
    sell_kitty s who kid p = .ok s' ↔
      some who = s.owner kid ∧
      s' = { s with price := updMap s.price kid p } := by
  unfold sell_kitty
  split <;> simp_all [eq_comm]

/-- Success characterization of `breed`. -/
theorem breed_ok_iff {cfg : Cfg} {s : KState} {who : Nat}
    {kid1 kid2 : Nat} {mix : Dna} {s' : KState} :
    breed cfg s who kid1 kid2 mix = .ok s' ↔
      kid1 ≠ kid2 ∧
      ∃ k1 k2, s.kitties kid1 = some k1 ∧ s.kitties kid2 = some k2 ∧
        get_id s ≠ cfg.maxValue ∧
        s' = { s with
                 kitties := updMap s.kitties (get_id s)
                   (some ⟨breed_dna mix k1.dna k2.dna⟩),
                 owner := updMap s.owner (get_id s) (some who),
                 kittiesCount := some (get_id s + 1) } := by
  unfold breed
  by_cases h12 : kid1 = kid2
  · simp [h12]
  · cases h1 : s.kitties kid1
    · simp [h12, h1]
    · cases h2 : s.kitties kid2
      · simp [h12, h1, h2]
      · by_cases hmax : get_id s = cfg.maxValue
        · simp [h12, h1, h2, hmax]
        · simp [h12, h1, h2, hmax, eq_comm]

/-- Success characterization of `buy_kitty`. -/
theorem buy_ok_iff {cfg : Cfg} {s : KState} {who : Nat}
    {kid : Nat} {s' : KState} :
    buy_kitty cfg s who kid = some (.ok s') ↔
      ∃ k seller p l1 l3,
        s.kitties kid = some k ∧ s.owner kid = some seller ∧
        who ≠ seller ∧ s.price kid = some p ∧
        s.ledger.reserve who cfg.deposit = some l1 ∧
        (l1.unreserve seller cfg.deposit).transferKA who seller p
          cfg.existentialDeposit = some l3 ∧
        s' = { s with
                 price := updMap s.price kid none,
                 owner := updMap s.owner kid (some who),
                 ledger := l3 } := by
  unfold buy_kitty
  cases hk : s.kitties kid
  · simp [hk]
  · cases ho : s.owner kid
    · simp [hk, ho]
    · rename_i seller
      by_cases hw : who = seller
      · simp [hk, ho, hw]
      · cases hp : s.price kid
        · simp [hk, ho, hw, hp]
        · rename_i p
          cases hr : s.ledger.reserve who cfg.deposit
          · simp [hk, ho, hw, hp, hr]
          · rename_i l1
            cases ht : (l1.unreserve seller cfg.deposit).transferKA who
                seller p cfg.existentialDeposit
            · simp [hk, ho, hw, hp, hr, ht]
            · simp [hk, ho, hw, hp, hr, ht, eq_comm]

end KittiesNode

namespace KittiesNode

theorem inv_empty (l : Ledger) : Inv (emptyState l) := by
  refine ⟨?_, ?_, ?_⟩ <;> intro kid <;> simp [emptyState]

theorem get_id_def (s : KState) : get_id s = s.kittiesCount.getD 0 := by
  cases h : s.kittiesCount <;> simp [get_id, h]

theorem get_id_le_of_owner {s : KState} (hs : Inv s) {kid : Nat}
    {a : Nat} (h : s.owner kid = some a) : kid < get_id s := by
  by_contra hlt
  have := (hs.fresh kid (Nat.le_of_not_lt hlt)).2.1
  rw [this] at h
  exact Option.noConfusion h

theorem get_id_le_of_kitty {s : KState} (hs : Inv s) {kid : Nat}
    {k : Kitty} (h : s.kitties kid = some k) : kid < get_id s := by
  by_contra hlt
  have := (hs.fresh kid (Nat.le_of_not_lt hlt)).1
  rw [this] at h
  exact Option.noConfusion h

theorem inv_create {cfg : Cfg} {s s' : KState} {who : Nat} {dna : Dna}
    (hs : Inv s) (h : create cfg s who dna = .ok s') : Inv s' := by
  obtain ⟨-, l, -, rfl⟩ := create_ok_iff.mp h
  refine ⟨?_, ?_, ?_⟩ <;> intro kid
  · intro hk
    by_cases hkid : kid = get_id s <;>
      simp only [updMap, hkid, if_pos, if_neg, ite_true, ite_false] at * <;>
      simp_all
    exact hs.ownerOfKitty kid hk
  · intro hk
    by_cases hkid : kid = get_id s <;>
      simp only [updMap, hkid, if_pos, if_neg, ite_true, ite_false] at * <;>
      simp_all
    exact hs.kittyOfOwner kid hk
  · intro hge
    have h1 : get_id s + 1 ≤ kid := by
      simpa [get_id_def] using hge
    have hne : kid ≠ get_id s := by omega
    have hold := hs.fresh kid (by omega)
    simp only [updMap, if_neg hne]
    exact hold

theorem inv_transfer {s s' : KState} {who newOwner : Nat}
    {kid : Nat} (hs : Inv s)
    (h : transfer s who newOwner kid = .ok s') : Inv s' := by
  obtain ⟨hown, rfl⟩ := transfer_ok_iff.mp h
  have hlt : kid < get_id s := get_id_le_of_owner hs hown.symm
  refine ⟨?_, ?_, ?_⟩ <;> intro j
  · intro hk
    by_cases hj : j = kid <;> simp [updMap, hj]
    exact hs.ownerOfKitty j hk
  · intro hk
    by_cases hj : j = kid
    · subst hj
      exact hs.kittyOfOwner j (by rw [← hown]; rfl)
    · simp only [updMap, if_neg hj] at hk
      exact hs.kittyOfOwner j hk
  · intro hge
    have hge' : get_id s ≤ j := by
      simpa [get_id_def] using hge
    have hj : j ≠ kid := by omega
    have hold := hs.fresh j hge'
    simp only [updMap, if_neg hj]
    exact hold

theorem inv_breed {cfg : Cfg} {s s' : KState} {who : Nat}
    {kid1 kid2 : Nat} {mix : Dna} (hs : Inv s)
    (h : breed cfg s who kid1 kid2 mix = .ok s') : Inv s' := by
  obtain ⟨-, k1, k2, -, -, -, rfl⟩ := breed_ok_iff.mp h
  refine ⟨?_, ?_, ?_⟩ <;> intro kid
  · intro hk
    by_cases hkid : kid = get_id s <;>
      simp only [updMap, hkid, if_pos, if_neg, ite_true, ite_false] at * <;>
      simp_all
    exact hs.ownerOfKitty kid hk
  · intro hk
    by_cases hkid : kid = get_id s <;>
      simp only [updMap, hkid, if_pos, if_neg, ite_true, ite_false] at * <;>
      simp_all
    exact hs.kittyOfOwner kid hk
  · intro hge
    have h1 : get_id s + 1 ≤ kid := by
      simpa [get_id_def] using hge
    have hne : kid ≠ get_id s := by omega
    have hold := hs.fresh kid (by omega)
    simp only [updMap, if_neg hne]
    exact hold

theorem inv_sell {s s' : KState} {who : Nat} {kid : Nat}
    {p : Option Nat} (hs : Inv s)
    (h : sell_kitty s who kid p = .ok s') : Inv s' := by
  obtain ⟨hown, rfl⟩ := sell_ok_iff.mp h
  have hlt : kid < get_id s := get_id_le_of_owner hs hown.symm
  refine ⟨hs.ownerOfKitty, hs.kittyOfOwner, ?_⟩
  intro j hge
  have hge' : get_id s ≤ j := by
    simpa [get_id_def] using hge
  have hj : j ≠ kid := by omega
  have hold := hs.fresh j hge'
  simp only [updMap, if_neg hj]
  exact hold

theorem inv_buy {cfg : Cfg} {s s' : KState} {who : Nat}
    {kid : Nat} (hs : Inv s)
    (h : buy_kitty cfg s who kid = some (.ok s')) : Inv s' := by
  obtain ⟨k, seller, p, l1, l3, hk, -, -, -, -, -, rfl⟩ := buy_ok_iff.mp h
  have hlt : kid < get_id s := get_id_le_of_kitty hs hk
  refine ⟨?_, ?_, ?_⟩ <;> intro j
  · intro hj2
    by_cases hj : j = kid <;> simp [updMap, hj]
    exact hs.ownerOfKitty j hj2
  · intro hj2
    by_cases hj : j = kid
    · subst hj
      simp [hk]
    · simp only [updMap, if_neg hj] at hj2
      exact hs.kittyOfOwner j hj2
  · intro hge
    have hge' : get_id s ≤ j := by
      simpa [get_id_def] using hge
    have hj : j ≠ kid := by omega
    have hold := hs.fresh j hge'
    simp only [updMap, if_neg hj]
    exact hold

theorem inv_step {cfg : Cfg} {s s' : KState} (hs : Inv s)
    (h : Step cfg s s') : Inv s' := by
  cases h with
  | create h => exact inv_create hs h
  | transfer h => exact inv_transfer hs h
  | breed h => exact inv_breed hs h
  | sell h => exact inv_sell hs h
  | buy h => exact inv_buy hs h

theorem reachable_inv {cfg : Cfg} {l : Ledger} {s : KState}
    (h : Reachable cfg l s) : Inv s := by
  induction h with
  | refl => exact inv_empty l
  | tail _ hstep ih => exact inv_step ih hstep

/-- Every successful dispatchable keeps `get_id` nondecreasing. -/
theorem step_get_id_le {cfg : Cfg} {s s' : KState} (h : Step cfg s s') :
    get_id s ≤ get_id s' := by
  cases h with
  | create h =>
    obtain ⟨-, l, -, rfl⟩ := create_ok_iff.mp h
    simp [get_id]
  | transfer h =>
    obtain ⟨-, rfl⟩ := transfer_ok_iff.mp h
    exact Nat.le_refl _
  | breed h =>
    obtain ⟨-, k1, k2, -, -, -, rfl⟩ := breed_ok_iff.mp h
    simp [get_id]
  | sell h =>
    obtain ⟨-, rfl⟩ := sell_ok_iff.mp h
    exact Nat.le_refl _
  | buy h =>
    obtain ⟨k, seller, p, l1, l3, -, -, -, -, -, -, rfl⟩ := buy_ok_iff.mp h
    exact Nat.le_refl _

theorem steps_get_id_le {cfg : Cfg} {s1 s2 : KState}
    (h : Relation.ReflTransGen (Step cfg) s1 s2) :
    get_id s1 ≤ get_id s2 := by
  induction h with
  | refl => exact Nat.le_refl _
  | tail _ hstep ih => exact Nat.le_trans ih (step_get_id_le hstep)

/-- A successful mint advances `get_id` by exactly one. -/
theorem mintOk_get_id {cfg : Cfg} {s s' : KState} (h : MintOk cfg s s') :
    get_id s' = get_id s + 1 := by
  rcases h with ⟨who, dna, h⟩ | ⟨who, kid1, kid2, mix, h⟩
  · obtain ⟨-, l, -, rfl⟩ := create_ok_iff.mp h
    simp [get_id]
  · obtain ⟨-, k1, k2, -, -, -, rfl⟩ := breed_ok_iff.mp h
    simp [get_id]

theorem mintOk_step {cfg : Cfg} {s s' : KState} (h : MintOk cfg s s') :
    Step cfg s s' := by
  rcases h with ⟨who, dna, h⟩ | ⟨who, kid1, kid2, mix, h⟩
  · exact Step.create h
  · exact Step.breed h

end KittiesNode

namespace KittiesNode

set_option maxRecDepth 4000 in
/-- Masking a byte with the all-ones mask 255 returns the byte. -/
theorem land_255_eq : ∀ a < 256, 255 &&& a = a := by decide

/-- C4: the breeding derivation computes, at every byte position,
`result[i] = (mask[i] AND A[i]) OR (NOT mask[i] AND B[i])`; an all-ones
mask byte yields parent A's byte exactly and an all-zero mask byte yields
parent B's byte exactly. -/
theorem c4_breed_dna_formula (mix dnaA dnaB : Dna) (i : Fin 16) :
    breed_dna mix dnaA dnaB i
      = (mix i &&& dnaA i) ||| (not8 (mix i) &&& dnaB i) ∧
    (mix i = 255 → dnaA i < 256 → breed_dna mix dnaA dnaB i = dnaA i) ∧
    (mix i = 0 → dnaB i < 256 → breed_dna mix dnaA dnaB i = dnaB i) := by
  refine ⟨rfl, ?_, ?_⟩
  · intro hm ha
    simp [breed_dna, not8, hm, Nat.xor_self, Nat.zero_and, Nat.or_zero,
      land_255_eq _ ha]
  · intro hm hb
    simp [breed_dna, not8, hm, Nat.xor_zero, Nat.zero_and, Nat.zero_or,
      land_255_eq _ hb]

theorem c4_witness :
    breed_dna (fun _ => 255) (fun _ => 171) (fun _ => 23) 0 = 171 ∧
    breed_dna (fun _ => 0) (fun _ => 171) (fun _ => 23) 0 = 23 :=
  ⟨(c4_breed_dna_formula (fun _ => 255) (fun _ => 171) (fun _ => 23) 0).2.1
      rfl (by decide),
   (c4_breed_dna_formula (fun _ => 0) (fun _ => 171) (fun _ => 23) 0).2.2
      rfl (by decide)⟩

/-- C9: after a successful `create(caller)`, looking up the freshly minted
id gives a kitty record, its owner entry equals the caller, and its price
entry is `None`. -/
theorem c9_create_then_get {cfg : Cfg} {s s' : KState} {who : Nat}
    {dna : Dna} (hs : Inv s) (h : create cfg s who dna = .ok s') :
    s'.kitties (get_id s) = some ⟨dna⟩ ∧
    s'.owner (get_id s) = some who ∧
    s'.price (get_id s) = none := by
  obtain ⟨-, l, -, rfl⟩ := create_ok_iff.mp h
  refine ⟨?_, ?_, ?_⟩
  · simp [updMap]
  · simp [updMap]
  · exact (hs.fresh (get_id s) (Nat.le_refl _)).2.2

theorem c9_witness :
    (runCreate cfgW (emptyState lRich) 7 dna0).kitties 0 = some ⟨dna0⟩ ∧
    (runCreate cfgW (emptyState lRich) 7 dna0).owner 0 = some 7 ∧
    (runCreate cfgW (emptyState lRich) 7 dna0).price 0 = none :=
  c9_create_then_get (inv_empty lRich)
    (rfl : create cfgW (emptyState lRich) 7 dna0
      = .ok (runCreate cfgW (emptyState lRich) 7 dna0))

/-- C1: buying a listed kitty aborts with no effect whenever the balance
ledger fails (insufficient funds at `reserve`, or a failing `KeepAlive`
transfer): the result is an error, the post-state equals the pre-state, the
price stays listed, the owner is unchanged, and neither party's reserved
balance changes. -/
theorem c1_buy_ledger_failure_atomic {cfg : Cfg} {s : KState}
    {who kid : Nat} {k : Kitty} {seller p : Nat}
    (hk : s.kitties kid = some k) (ho : s.owner kid = some seller)
    (hw : who ≠ seller) (hp : s.price kid = some p)
    (hf : buyLedgerFails cfg s.ledger who seller p) :
    (∃ e, buy_kitty cfg s who kid = some (.error e)) ∧
    runBuy cfg s who kid = s ∧
    (runBuy cfg s who kid).price kid = some p ∧
    (runBuy cfg s who kid).owner kid = some seller ∧
    (runBuy cfg s who kid).ledger.reserved who = s.ledger.reserved who ∧
    (runBuy cfg s who kid).ledger.reserved seller
      = s.ledger.reserved seller := by
  unfold buyLedgerFails at hf
  have hbuy : ∃ e, buy_kitty cfg s who kid = some (.error e) := by
    cases hr : s.ledger.reserve who cfg.deposit with
    | none =>
      exact ⟨.InsufficientBalance, by simp [buy_kitty, hk, ho, hw, hp, hr]⟩
    | some l1 =>
      rw [hr] at hf
      exact ⟨.LedgerError, by simp [buy_kitty, hk, ho, hw, hp, hr, hf]⟩
  obtain ⟨e, he⟩ := hbuy
  have hrun : runBuy cfg s who kid = s := by simp [runBuy, he]
  exact ⟨⟨e, he⟩, hrun, by rw [hrun]; exact hp, by rw [hrun]; exact ho,
    by rw [hrun], by rw [hrun]⟩

theorem c1_witness :
    (∃ e, buy_kitty cfgW (listedState lPoor) 2 0 = some (.error e)) ∧
    runBuy cfgW (listedState lPoor) 2 0 = listedState lPoor ∧
    (runBuy cfgW (listedState lPoor) 2 0).price 0 = some 7 :=
  have h := @c1_buy_ledger_failure_atomic cfgW (listedState lPoor) 2 0
    ⟨dna0⟩ 1 7 rfl rfl (by decide) rfl trivial
  ⟨h.1, h.2.1, h.2.2.1⟩

end KittiesNode

namespace KittiesNode

/-- C10: in every state reachable from genesis, every id present in the
Kitties registry has a `Some` owner entry, so `buy_kitty`'s `unwrap` of the
owner (performed after the existence check) never panics. -/
theorem c10_owner_unwrap_safe {cfg : Cfg} {l : Ledger} {s : KState}
    (h : Reachable cfg l s) :
    (∀ kid, (s.kitties kid).isSome → (s.owner kid).isSome) ∧
    (∀ who kid, buy_kitty cfg s who kid ≠ none) := by
  have hs := reachable_inv h
  refine ⟨hs.ownerOfKitty, ?_⟩
  intro who kid hcontra
  cases hk : s.kitties kid with
  | none => simp [buy_kitty, hk] at hcontra
  | some k =>
    have hsome := hs.ownerOfKitty kid (by rw [hk]; rfl)
    cases ho : s.owner kid with
    | none => rw [ho] at hsome; simp at hsome
    | some seller =>
      by_cases hw : who = seller
      · simp [buy_kitty, hk, ho, hw] at hcontra
      · cases hp : s.price kid with
        | none => simp [buy_kitty, hk, ho, hw, hp] at hcontra
        | some p =>
          cases hr : s.ledger.reserve who cfg.deposit with
          | none => simp [buy_kitty, hk, ho, hw, hp, hr] at hcontra
          | some l1 =>
            cases ht : (l1.unreserve seller cfg.deposit).transferKA who
                seller p cfg.existentialDeposit with
            | none => simp [buy_kitty, hk, ho, hw, hp, hr, ht] at hcontra
            | some l3 => simp [buy_kitty, hk, ho, hw, hp, hr, ht] at hcontra

theorem c10_witness :
    buy_kitty cfgW (emptyState lRich) 3 0 ≠ none :=
  (c10_owner_unwrap_safe (Relation.ReflTransGen.refl)).2 3 0

/-- C6: `buy_kitty` fails with `InvalidKittyIndex` iff the id is absent
from the registry; given the id exists, it fails with `BuyFromSelf` iff the
caller is the current owner; given the caller is not the owner, it fails
with `KittyNotForSale` iff the price entry is `None`. -/
theorem c6_buy_error_cases (cfg : Cfg) (s : KState) (who kid : Nat) :
    (buy_kitty cfg s who kid = some (.error .InvalidKittyIndex) ↔
      s.kitties kid = none) ∧
    (∀ k, s.kitties kid = some k →
      (buy_kitty cfg s who kid = some (.error .BuyFromSelf) ↔
        s.owner kid = some who)) ∧
    (∀ k seller, s.kitties kid = some k → s.owner kid = some seller →
      who ≠ seller →
      (buy_kitty cfg s who kid = some (.error .KittyNotForSale) ↔
        s.price kid = none)) := by
  refine ⟨?_, ?_, ?_⟩
  · cases hk : s.kitties kid with
    | none => simp [buy_kitty, hk]
    | some k0 =>
      cases ho : s.owner kid with
      | none => simp [buy_kitty, hk, ho]
      | some seller =>
        by_cases hw : who = seller
        · simp [buy_kitty, hk, ho, hw]
        · cases hp : s.price kid with
          | none => simp [buy_kitty, hk, ho, hw, hp]
          | some p =>
            cases hr : s.ledger.reserve who cfg.deposit with
            | none => simp [buy_kitty, hk, ho, hw, hp, hr]
            | some l1 =>
              cases ht : (l1.unreserve seller cfg.deposit).transferKA who
                  seller p cfg.existentialDeposit with
              | none => simp [buy_kitty, hk, ho, hw, hp, hr, ht]
              | some l3 => simp [buy_kitty, hk, ho, hw, hp, hr, ht]
  · intro k hk
    cases ho : s.owner kid with
    | none => simp [buy_kitty, hk, ho]
    | some seller =>
      by_cases hw : who = seller
      · subst hw
        simp [buy_kitty, hk, ho]
      · cases hp : s.price kid with
        | none => simp [buy_kitty, hk, ho, hw, hp, Ne.symm hw]
        | some p =>
          cases hr : s.ledger.reserve who cfg.deposit with
          | none => simp [buy_kitty, hk, ho, hw, hp, hr, Ne.symm hw]
          | some l1 =>
            cases ht : (l1.unreserve seller cfg.deposit).transferKA who
                seller p cfg.existentialDeposit with
            | none => simp [buy_kitty, hk, ho, hw, hp, hr, ht, Ne.symm hw]
            | some l3 =>
              simp [buy_kitty, hk, ho, hw, hp, hr, ht, Ne.symm hw]
  · intro k seller hk ho hw
    cases hp : s.price kid with
    | none => simp [buy_kitty, hk, ho, hw, hp]
    | some p =>
      cases hr : s.ledger.reserve who cfg.deposit with
      | none => simp [buy_kitty, hk, ho, hw, hp, hr]
      | some l1 =>
        cases ht : (l1.unreserve seller cfg.deposit).transferKA who
            seller p cfg.existentialDeposit with
        | none => simp [buy_kitty, hk, ho, hw, hp, hr, ht]
        | some l3 => simp [buy_kitty, hk, ho, hw, hp, hr, ht]

end KittiesNode

namespace KittiesNode

/-- C5 (counterexample): with the counter at the maximum, a breed whose
parent check fails reports `SameParentIndex`, not the counter-overflow
error, so not every mint attempt at the maximum fails with
`KittiesCountOverflow`. -/
theorem c5_counterexample :
    get_id fullState = cfgTwo.maxValue ∧
    breed cfgTwo fullState 1 0 0 dna0 = .error .SameParentIndex ∧
    KError.SameParentIndex ≠ KError.KittiesCountOverflow :=
  ⟨rfl, rfl, by decide⟩

/-- C5 (amended): the allocator never yields the same id twice across
successful mints; once the counter has reached the maximum, every mint
attempt fails with no state change — `create` always with the
counter-overflow error, and `breed` with the counter-overflow error
whenever its parent checks pass. -/
theorem c5_allocator_amended :
    (∀ (cfg : Cfg) (s1 s2 s3 s4 : KState),
      MintOk cfg s1 s2 → Relation.ReflTransGen (Step cfg) s2 s3 →
      MintOk cfg s3 s4 → get_id s1 ≠ get_id s3) ∧
    (∀ (cfg : Cfg) (s : KState) (who : Nat) (dna : Dna),
      get_id s = cfg.maxValue →
      create cfg s who dna = .error .KittiesCountOverflow ∧
      runCreate cfg s who dna = s) ∧
    (∀ (cfg : Cfg) (s : KState) (who kid1 kid2 : Nat) (mix : Dna)
      (k1 k2 : Kitty),
      get_id s = cfg.maxValue → kid1 ≠ kid2 →
      s.kitties kid1 = some k1 → s.kitties kid2 = some k2 →
      breed cfg s who kid1 kid2 mix = .error .KittiesCountOverflow ∧
      runBreed cfg s who kid1 kid2 mix = s) := by
  refine ⟨?_, ?_, ?_⟩
  · intro cfg s1 s2 s3 s4 h1 hsteps h3
    have e1 : get_id s2 = get_id s1 + 1 := mintOk_get_id h1
    have e2 : get_id s2 ≤ get_id s3 := steps_get_id_le hsteps
    omega
  · intro cfg s who dna hmax
    have hc : create cfg s who dna = .error .KittiesCountOverflow := by
      simp [create, hmax]
    exact ⟨hc, by simp [runCreate, hc]⟩
  · intro cfg s who kid1 kid2 mix k1 k2 hmax h12 hk1 hk2
    have hb : breed cfg s who kid1 kid2 mix
        = .error .KittiesCountOverflow := by
      simp [breed, h12, hk1, hk2, hmax]
    exact ⟨hb, by simp [runBreed, hb]⟩

theorem c5_witness :
    get_id (emptyState lRich)
      ≠ get_id (runCreate cfgW (emptyState lRich) 7 dna0) ∧
    create cfgTwo fullState 1 dna0 = .error .KittiesCountOverflow ∧
    breed cfgTwo fullState 1 0 1 dna0 = .error .KittiesCountOverflow := by
  refine ⟨?_, ?_, ?_⟩
  · exact c5_allocator_amended.1 cfgW (emptyState lRich)
      (runCreate cfgW (emptyState lRich) 7 dna0)
      (runCreate cfgW (emptyState lRich) 7 dna0)
      (runCreate cfgW (runCreate cfgW (emptyState lRich) 7 dna0) 7 dna0)
      (Or.inl ⟨7, dna0, rfl⟩) Relation.ReflTransGen.refl
      (Or.inl ⟨7, dna0, rfl⟩)
  · exact (c5_allocator_amended.2.1 cfgTwo fullState 1 dna0 rfl).1
  · exact (c5_allocator_amended.2.2 cfgTwo fullState 1 0 1 dna0
      ⟨dna0⟩ ⟨dna0⟩ rfl (by decide) rfl rfl).1

/-- C2 (counterexample): a successful ownership transfer of a listed kitty
leaves its price `Some 7`, not `None`. -/
theorem c2_counterexample :
    isOk (transfer (listedState lRich) 1 2 0) = true ∧
    (runTransfer (listedState lRich) 1 2 0).price 0 = some 7 :=
  ⟨rfl, rfl⟩

/-- C2 (amended): a successful buy clears the asset's price to `None`, but
a successful ownership transfer leaves the price map unchanged (it does
not clear the listing). -/
theorem c2_price_clearing_amended :
    (∀ (cfg : Cfg) (s : KState) (who kid : Nat) (s' : KState),
      buy_kitty cfg s who kid = some (.ok s') → s'.price kid = none) ∧
    (∀ (s : KState) (who newOwner kid : Nat) (s' : KState),
      transfer s who newOwner kid = .ok s' → s'.price = s.price) := by
  constructor
  · intro cfg s who kid s' h
    obtain ⟨k, seller, p, l1, l3, -, -, -, -, -, -, rfl⟩ := buy_ok_iff.mp h
    simp [updMap]
  · intro s who newOwner kid s' h
    obtain ⟨-, rfl⟩ := transfer_ok_iff.mp h
    rfl

theorem c2_witness :
    (runBuy cfgW (listedState lRich) 2 0).price 0 = none ∧
    (runTransfer (listedState lRich) 1 2 0).price
      = (listedState lRich).price := by
  constructor
  · exact c2_price_clearing_amended.1 cfgW (listedState lRich) 2 0 _ rfl
  · exact c2_price_clearing_amended.2 (listedState lRich) 1 2 0 _ rfl

/-- C3 (counterexample): a self-transfer by the owner is accepted, not
rejected. -/
theorem c3_counterexample :
    isOk (transfer (listedState lRich) 1 1 0) = true := rfl

/-- C3 (amended): `transfer` performs no self-transfer check: when the
caller owns the kitty, a transfer to itself succeeds and leaves every
storage map unchanged; when the caller does not own it, it fails with
`NotKittyOwner` and changes no state. -/
theorem c3_self_transfer_amended :
    (∀ (s : KState) (who kid : Nat), s.owner kid = some who →
      isOk (transfer s who who kid) = true ∧
      (runTransfer s who who kid).owner = s.owner ∧
      (runTransfer s who who kid).kitties = s.kitties ∧
      (runTransfer s who who kid).price = s.price ∧
      (runTransfer s who who kid).kittiesCount = s.kittiesCount) ∧
    (∀ (s : KState) (who kid : Nat), s.owner kid ≠ some who →
      transfer s who who kid = .error .NotKittyOwner ∧
      runTransfer s who who kid = s) := by
  constructor
  · intro s who kid h
    have ht : transfer s who who kid
        = .ok { s with owner := updMap s.owner kid (some who) } := by
      simp [transfer, h]
    have hown : updMap s.owner kid (some who) = s.owner := by
      funext x
      by_cases hx : x = kid
      · subst hx
        simp [updMap, h]
      · simp [updMap, hx]
    exact ⟨by simp [isOk, ht], by simp [runTransfer, ht, hown],
      by simp [runTransfer, ht], by simp [runTransfer, ht],
      by simp [runTransfer, ht]⟩
  · intro s who kid h
    have hcond : ¬(some who = s.owner kid) := fun hh => h hh.symm
    have ht : transfer s who who kid = .error .NotKittyOwner := by
      simp [transfer, hcond]
    exact ⟨ht, by simp [runTransfer, ht]⟩

theorem c3_witness :
    (runTransfer (listedState lRich) 1 1 0).owner
      = (listedState lRich).owner ∧
    transfer (emptyState lRich) 7 7 5 = .error .NotKittyOwner := by
  constructor
  · exact (c3_self_transfer_amended.1 (listedState lRich) 1 0 rfl).2.1
  · exact (c3_self_transfer_amended.2 (emptyState lRich) 7 5
      (by decide)).1

/-- C8 (counterexample): `sell_kitty` on an id absent from the registry
fails with `NotKittyOwner`, not with `InvalidKittyIndex` as the claim
states. -/
theorem c8_counterexample :
    sell_kitty (emptyState lRich) 7 5 (some 3) = .error .NotKittyOwner ∧
    KError.NotKittyOwner ≠ KError.InvalidKittyIndex :=
  ⟨rfl, by decide⟩

/-- C8 (amended): `sell_kitty` with an id absent from the registry fails —
with `NotKittyOwner`, because an unregistered id has no owner entry so the
ownership check cannot pass — and changes no state. -/
theorem c8_set_price_unknown_id {s : KState} {who kid : Nat}
    {p : Option Nat} (hs : Inv s) (hk : s.kitties kid = none) :
    sell_kitty s who kid p = .error .NotKittyOwner ∧
    runSell s who kid p = s := by
  have ho : s.owner kid = none := by
    cases ho : s.owner kid with
    | none => rfl
    | some a =>
      have h2 := hs.kittyOfOwner kid (by rw [ho]; rfl)
      rw [hk] at h2
      exact absurd h2 (by simp)
  have hcond : ¬(some who = s.owner kid) := by
    rw [ho]
    simp
  have hsellEq : sell_kitty s who kid p = .error .NotKittyOwner := by
    simp [sell_kitty, hcond]
  exact ⟨hsellEq, by simp [runSell, hsellEq]⟩

theorem c8_witness :
    sell_kitty (emptyState lRich) 7 6 (some 3) = .error .NotKittyOwner ∧
    runSell (emptyState lRich) 7 6 (some 3) = emptyState lRich :=
  c8_set_price_unknown_id (inv_empty lRich) rfl

end KittiesNode

namespace NodeTemplate

/-- C7: under the bound invariant, after a successful mint no account's
ownership collection exceeds `MaxKittyOwned`; and a mint whose registration
would exceed the owner's maximum fails, leaving the registry, the counter
and the ownership index unchanged. -/
theorem c7_bounded_ownership_index (cfg : SCfg) (s : SState)
    (owner : Nat) (dna? : Option Dna) (rndDna : Dna)
    (gender? : Option Gender) (rndGender : Gender)
    (hbound : ∀ a, (s.kittiesOwned a).length ≤ cfg.maxKittyOwned) :
    (∀ s' kid,
      mint cfg s owner dna? rndDna gender? rndGender = .ok (s', kid) →
      ∀ a, (s'.kittiesOwned a).length ≤ cfg.maxKittyOwned) ∧
    (cfg.maxKittyOwned ≤ (s.kittiesOwned owner).length →
      (∃ e, mint cfg s owner dna? rndDna gender? rndGender = .error e) ∧
      runMint cfg s owner dna? rndDna gender? rndGender = s) := by
  constructor
  · intro s' kid h
    simp only [mint] at h
    by_cases hc : s.kittyCnt = u64max
    · rw [if_pos hc] at h
      exact absurd h (by simp)
    · rw [if_neg hc] at h
      by_cases hl : cfg.maxKittyOwned ≤ (s.kittiesOwned owner).length
      · rw [if_pos hl] at h
        exact absurd h (by simp)
      · rw [if_neg hl] at h
        simp only [Except.ok.injEq, Prod.mk.injEq] at h
        obtain ⟨h1, -⟩ := h
        subst h1
        intro a
        by_cases ha : a = owner
        · subst ha
          simp [KittiesNode.updMap]
          omega
        · simp [KittiesNode.updMap, ha]
          exact hbound a
  · intro hfull
    have hfail : ∃ e,
        mint cfg s owner dna? rndDna gender? rndGender = .error e := by
      simp only [mint]
      by_cases hc : s.kittyCnt = u64max
      · exact ⟨.KittyCntOverflow, by rw [if_pos hc]⟩
      · exact ⟨.ExceedMaxKittyOwned, by rw [if_neg hc, if_pos hfull]⟩
    obtain ⟨e, he⟩ := hfail
    exact ⟨⟨e, he⟩, by simp [runMint, he]⟩

theorem c7_witness :
    ((runMint cfgS sEmpty 5 none (fun _ => 0) none
        Gender.Male).kittiesOwned 5).length ≤ cfgS.maxKittyOwned ∧
    runMint cfgS sFull 5 none (fun _ => 0) none Gender.Male = sFull := by
  constructor
  · exact (c7_bounded_ownership_index cfgS sEmpty 5 none (fun _ => 0)
      none Gender.Male (fun a => by simp [sEmpty])).1 _ 0 rfl 5
  · exact ((c7_bounded_ownership_index cfgS sFull 5 none (fun _ => 0)
      none Gender.Male (fun a => by
        by_cases h : a = 5 <;> simp [sFull, cfgS, h])).2
      (by decide)).2

end NodeTemplate

namespace KittiesNode

theorem c6_witness :
    buy_kitty cfgW (listedState lRich) 2 1
      = some (.error .InvalidKittyIndex) ∧
    buy_kitty cfgW (listedState lRich) 1 0
      = some (.error .BuyFromSelf) ∧
    buy_kitty cfgTwo fullState 2 0
      = some (.error .KittyNotForSale) :=
  ⟨(c6_buy_error_cases cfgW (listedState lRich) 2 1).1.mpr rfl,
   ((c6_buy_error_cases cfgW (listedState lRich) 1 0).2.1
      ⟨dna0⟩ rfl).mpr rfl,
   ((c6_buy_error_cases cfgTwo fullState 2 0).2.2
      ⟨dna0⟩ 1 rfl rfl (by decide)).mpr rfl⟩

end KittiesNode
